import Mathlib

/-!
Verification of the GeocodeFarm geocoder (`geopy/geocoders/geocodefarm.py`).

The development shallowly embeds the module's request construction and
response interpretation pipeline.  JSON values handled by the Python code
are modelled by `PyVal`; Python exceptions that can escape the embedded
functions are modelled by `PyError`, and each fallible Python operation
becomes a Lean function into `Except PyError _`.
-/

/-- Model of the Python values flowing through the geocoder: decoded JSON
values (`null`, strings, lists, string-keyed objects) plus the values
produced by `float()` conversion.  A converted float is represented
opaquely by the string it was converted from; no claim depends on
floating-point arithmetic, only on whether a conversion happened. -/
inductive PyVal : Type where
  | null : PyVal
  | str : String → PyVal
  | floatv : String → PyVal
  | list : List PyVal → PyVal
  | dict : List (String × PyVal) → PyVal
deriving Repr, Inhabited

/-- Python `v is None` for the modelled values. -/
def PyVal.isNull : PyVal → Bool
  | .null => true
  | _ => false

/-- Python equality `v == lit` against a string literal: true exactly when
`v` is that string (no other modelled value compares equal to a string). -/
def pyEqStr : PyVal → String → Bool
  | .str s, t => s == t
  | _, _ => false

/-- Model of the Python exceptions that response interpretation and request
building can raise.  The last three are the geopy exception classes imported
by the module (`GeocoderAuthenticationFailure`, `GeocoderQuotaExceeded`,
`GeocoderServiceError`); each carries the value passed to its constructor. -/
inductive PyError : Type where
  | keyError : String → PyError
  | typeError : String → PyError
  | valueError : String → PyError
  | indexError : PyError
  | authenticationFailure : PyVal → PyError
  | quotaExceeded : PyVal → PyError
  | serviceError : PyVal → PyError
deriving Repr, Inhabited

/-- Python truthiness for the modelled values: `None` is falsy, strings,
lists and dicts are truthy iff non-empty.  A converted float is only ever
produced downstream of the truthiness test in `parse_code`, so its
truthiness is never consulted; it is modelled as `true`. -/
def truthy : PyVal → Bool
  | .null => false
  | .str s => !s.isEmpty
  | .floatv _ => true
  | .list xs => !xs.isEmpty
  | .dict fs => !fs.isEmpty

/-- Python `d.get(key, default)`.  On a non-dict receiver Python raises
`AttributeError`; the distinction from `TypeError` is irrelevant to every
claim, so a single error kind models both. -/
def pyGetD : PyVal → String → PyVal → Except PyError PyVal
  | .dict fs, k, d => .ok ((fs.lookup k).getD d)
  | _, _, _ => .error (.typeError "get on a non-dict value")

/-- Python subscription `d[key]`: `KeyError` when the key is absent,
`TypeError` when the receiver is not a dict. -/
def pyIndex : PyVal → String → Except PyError PyVal
  | .dict fs, k =>
    match fs.lookup k with
    | some v => .ok v
    | none => .error (.keyError k)
  | _, _ => .error (.typeError "subscription of a non-dict value")

/-- Substring test on character lists: `needle` occurs contiguously in
`hay`. -/
def containsSubList (needle : List Char) : List Char → Bool
  | [] => needle.isEmpty
  | c :: rest => needle.isPrefixOf (c :: rest) || containsSubList needle rest

/-- Python `needle in hay` for string `hay`. -/
def strContains (hay needle : String) : Bool :=
  containsSubList needle.data hay.data

/-- Python membership `needle in v` as used on the `status` field: substring
test on strings, element membership on lists, key membership on dicts,
`TypeError` on `None` and floats. -/
def pyInStr (needle : String) : PyVal → Except PyError Bool
  | .str s => .ok (strContains s needle)
  | .list xs => .ok (xs.any (fun v => pyEqStr v needle))
  | .dict fs => .ok (fs.any (fun kv => kv.1 == needle))
  | .null => .error (.typeError "argument of type NoneType is not iterable")
  | .floatv _ => .error (.typeError "argument of type float is not iterable")

/-- Simplified model of the strings accepted by Python `float()`: an
optional sign followed by a non-empty run of digits with at most one
decimal point.  (Python additionally accepts exponents, `inf`/`nan`,
surrounding whitespace and underscores; no claim depends on those forms.) -/
def isFloatLiteral (s : String) : Bool :=
  let body :=
    match s.data with
    | '+' :: r => r
    | '-' :: r => r
    | r => r
  !body.isEmpty
    && body.all (fun c => c.isDigit || c = '.')
    && body.count '.' ≤ 1
    && body.any Char.isDigit

/-- Python `float(v)`: converts numeric strings (modelled as the tagged
value `PyVal.floatv`), is the identity on floats, and raises `TypeError`
on `None`, lists and dicts, `ValueError` on non-numeric strings. -/
def pyFloat : PyVal → Except PyError PyVal
  | .str s =>
    if isFloatLiteral s then .ok (.floatv s)
    else .error (.valueError "could not convert string to float")
  | .floatv s => .ok (.floatv s)
  | .null => .error (.typeError "float argument must be a string or a number")
  | .list _ => .error (.typeError "float argument must be a string or a number")
  | .dict _ => .error (.typeError "float argument must be a string or a number")

/-- Python iteration over the value bound in `for result in ...` inside
`parse_code`: lists yield their elements, strings their characters, dicts
their keys; `None` and floats raise `TypeError`. -/
def pyIterList : PyVal → Except PyError (List PyVal)
  | .list xs => .ok xs
  | .str s => .ok (s.data.map (fun c => .str (String.singleton c)))
  | .dict fs => .ok (fs.map (fun kv => .str kv.1))
  | .null => .error (.typeError "NoneType object is not iterable")
  | .floatv _ => .error (.typeError "float object is not iterable")

/-- Modelled from the spec: `geopy.location.Location` is not under src/.
Per the data model a NormalizedLocation is a display name, a coordinate
pair and a reference to the raw per-result mapping, created fresh from the
values passed to it with no further processing. -/
structure Location where
  name : PyVal
  latitude : PyVal
  longitude : PyVal
  raw : PyVal
deriving Repr, Inhabited

/-- Body of the `for result in results.get('RESULTS')` loop of
`GeocodeFarm.parse_code`: fetch `COORDINATES`/`ADDRESS` (defaulting to
empty dicts), fetch `latitude`/`longitude`/`address_returned` (defaulting
to `None`), fall back to `address` when `address_returned` is `None`,
convert both coordinates with `float()` only when both are truthy, and
build the `Location`. -/
def decodeEntry (result : PyVal) : Except PyError Location := do
  let coordinates ← pyGetD result "COORDINATES" (.dict [])
  let address ← pyGetD result "ADDRESS" (.dict [])
  let latitude ← pyGetD coordinates "latitude" .null
  let longitude ← pyGetD coordinates "longitude" .null
  let placename0 ← pyGetD address "address_returned" .null
  let placename ←
    if placename0.isNull then pyGetD address "address" .null
    else pure placename0
  if truthy latitude && truthy longitude then
    let lat ← pyFloat latitude
    let lon ← pyFloat longitude
    return ⟨placename, lat, lon, result⟩
  else
    return ⟨placename, latitude, longitude, result⟩

/-- The accumulation of `places` across the loop of `parse_code`: decode
each entry in order, aborting at the first raised exception. -/
def parseCodeLoop : List PyVal → Except PyError (List Location)
  | [] => .ok []
  | r :: rs => do
    let loc ← decodeEntry r
    let rest ← parseCodeLoop rs
    return loc :: rest

/-- `GeocodeFarm.parse_code(results)`: iterate `results.get('RESULTS')`
(defaulting to `None`, so an absent key raises `TypeError` at the `for`)
and decode each entry in provider order. -/
def parse_code (results : PyVal) : Except PyError (List Location) := do
  let resultsVal ← pyGetD results "RESULTS" .null
  let entries ← pyIterList resultsVal
  parseCodeLoop entries

/-- The mapping of `STATUS.access` values to raised exceptions in
`GeocodeFarm._check_for_api_errors`: the dict lookup
`access_error_to_exception.get(access_error, GeocoderServiceError)`
followed by `raise exception_cls(access_error)`. -/
def accessErrorToException (accessError : PyVal) : PyError :=
  if pyEqStr accessError "API_KEY_INVALID" then .authenticationFailure accessError
  else if pyEqStr accessError "OVER_QUERY_LIMIT" then .quotaExceeded accessError
  else .serviceError accessError

/-- `GeocodeFarm._check_for_api_errors(geocoding_results)`: fetch
`STATUS` (default empty dict) and `status` (default empty string); return
silently when the status contains `NO_RESULTS`; otherwise, unless the
status equals `SUCCESS`, raise the exception selected by `STATUS.access`. -/
def check_for_api_errors (geocodingResults : PyVal) : Except PyError Unit := do
  let statusResult ← pyGetD geocodingResults "STATUS" (.dict [])
  let status ← pyGetD statusResult "status" (.str "")
  let noResults ← pyInStr "NO_RESULTS" status
  if noResults then return ()
  let apiCallSuccess := pyEqStr status "SUCCESS"
  if !apiCallSuccess then
    let accessError ← pyGetD statusResult "access" .null
    throw (accessErrorToException accessError)

/-- Result of `_parse_json`: either a single `Location` (when
`exactly_one` is true) or the full list. -/
inductive GeoResult : Type where
  | one : Location → GeoResult
  | many : List Location → GeoResult
deriving Repr

/-- `GeocodeFarm._parse_json(api_result, exactly_one)`: `None` in, `None`
out; index the `geocoding_results` envelope; run the error check; return
`None` when the (re-fetched) status contains `NO_RESULTS`; otherwise decode
the results and either select the first element (`places[0]`, raising
`IndexError` on an empty list) or return them all. -/
def parse_json (apiResult : PyVal) (exactlyOne : Bool) :
    Except PyError (Option GeoResult) := do
  if apiResult.isNull then return none
  let geocodingResults ← pyIndex apiResult "geocoding_results"
  check_for_api_errors geocodingResults
  let statusResult ← pyGetD geocodingResults "STATUS" (.dict [])
  let status ← pyGetD statusResult "status" (.str "")
  let noResults ← pyInStr "NO_RESULTS" status
  if noResults then return none
  let places ← parse_code geocodingResults
  if exactlyOne then
    match places with
    | [] => throw .indexError
    | p :: _ => return some (.one p)
  else
    return some (.many places)

/-! ## Request building -/

/-- Hexadecimal digit characters `0`..`9`, `A`..`F` used by percent
encoding. -/
def hexDigitChar (n : Nat) : Char :=
  if n < 10 then Char.ofNat (48 + n) else Char.ofNat (55 + n)

/-- Characters left unencoded by `urllib` quoting: ASCII alphanumerics and
`-`, `_`, `.`, `~`. -/
def isUrlSafe (c : Char) : Bool :=
  c.isAlphanum || c = '-' || c = '_' || c = '.' || c = '~'

/-- Percent and plus encoding of one character: safe characters stand for
themselves, a space becomes `+`, anything else becomes a percent escape of
its code point.  Modelled for single-byte (code point below 256)
characters; the UTF-8 multi-byte expansion of wider characters is not
modelled, and theorems about decoding are stated for single-byte
strings. -/
def quoteChar (c : Char) : List Char :=
  if isUrlSafe c then [c]
  else if c = ' ' then ['+']
  else ['%', hexDigitChar (c.toNat / 16 % 16), hexDigitChar (c.toNat % 16)]

/-- Quoting of a whole string, character by character. -/
def quotePlus (s : String) : String :=
  ⟨s.data.flatMap quoteChar⟩

/-- Encoding of one `key=value` pair. -/
def encodePair (p : String × String) : List Char :=
  (quotePlus p.1).data ++ '=' :: (quotePlus p.2).data

/-- Modelled from the spec: the URL-encoding collaborator
(`geopy.compat.urlencode`, the standard-library `urlencode`) is not under
src/.  Per the spec it URL-encodes all parameter values and joins
`key=value` pairs with `&`; parameter order is the insertion order of the
dict built by the caller. -/
def urlencodeChars : List (String × String) → List Char
  | [] => []
  | [p] => encodePair p
  | p :: q :: ps => encodePair p ++ '&' :: urlencodeChars (q :: ps)

/-- String form of `urlencode`. -/
def urlencode (ps : List (String × String)) : String :=
  ⟨urlencodeChars ps⟩

/-- Split a character list at every occurrence of `sep` (Python
`str.split` with a one-character separator: no empty-part removal). -/
def splitOnChar (sep : Char) : List Char → List (List Char)
  | [] => [[]]
  | c :: rest =>
    if c = sep then [] :: splitOnChar sep rest
    else
      match splitOnChar sep rest with
      | [] => [[c]]
      | p :: ps => (c :: p) :: ps

/-- Python `s.split(',')`. -/
def pySplitComma (s : String) : List String :=
  (splitOnChar ',' s.data).map (fun cs => ⟨cs⟩)

/-- Python `s.strip()`: remove leading and trailing whitespace. -/
def pyStrip (s : String) : String :=
  ⟨((s.data.dropWhile Char.isWhitespace).reverse.dropWhile Char.isWhitespace).reverse⟩

/-- Value of a hexadecimal digit character (0 for non-hex input). -/
def hexVal (c : Char) : Nat :=
  if c.isDigit then c.toNat - 48
  else if 'A' ≤ c ∧ c ≤ 'F' then c.toNat - 55
  else if 'a' ≤ c ∧ c ≤ 'f' then c.toNat - 87
  else 0

/-- Inverse of the plus and percent quoting on character lists: `+`
becomes a space, `%` followed by two characters decodes a percent escape,
everything else stands for itself (a trailing malformed escape is kept
verbatim). -/
def unquoteChars : List Char → List Char
  | [] => []
  | c :: rest =>
    if c = '+' then ' ' :: unquoteChars rest
    else if c = '%' then
      match rest with
      | h :: l :: rest2 => Char.ofNat (16 * hexVal h + hexVal l) :: unquoteChars rest2
      | _ => c :: rest
    else c :: unquoteChars rest

/-- Split one encoded pair at its first `=` (key before, value after). -/
def splitKV : List Char → List Char × List Char
  | [] => ([], [])
  | c :: rest =>
    if c = '=' then ([], rest)
    else
      let kv := splitKV rest
      (c :: kv.1, kv.2)

/-- Decoding of a query string back into its parameter list: split on `&`,
split each pair at its first `=`, and unquote keys and values. -/
def decodeParams (qs : String) : List (String × String) :=
  (splitOnChar '&' qs.data).map
    (fun p => ((⟨unquoteChars (splitKV p).1⟩ : String), (⟨unquoteChars (splitKV p).2⟩ : String)))

/-- Everything after the first occurrence of `sep` (empty if absent). -/
def afterChar (sep : Char) : List Char → List Char
  | [] => []
  | c :: rest => if c = sep then rest else afterChar sep rest

/-- The query-string part of a URL: everything after the first `?`. -/
def urlQuery (url : String) : String :=
  ⟨afterChar '?' url.data⟩

/-- The state a configured `GeocodeFarm` instance carries into request
building: the optional API key and the format template applied to forward
queries.  (`scheme` is fixed to `https` by the constructor.) -/
structure GeocodeFarm where
  api_key : Option String
  format_string : String

/-- The forward endpoint `self.api` with the constructor's fixed `https`
scheme. -/
def forwardApi : String := "https://www.geocode.farm/v3/json/forward/"

/-- The reverse endpoint `self.reverse_api`. -/
def reverseApi : String := "https://www.geocode.farm/v3/json/reverse/"

/-- Truthiness of the configured `api_key` as tested by
`if self.api_key:` — false for `None` and for the empty string. -/
def apiKeyTruthy : Option String → Bool
  | none => false
  | some s => !s.isEmpty

/-- Modelled from the spec: Python `%`-substitution of
`self.format_string % query` is a language builtin, applied to a template
with a single substitution slot per the base-class contract.  The first
`%s` is replaced by the query; `%%` escapes and multi-slot templates are
not modelled (the spec calls them a caller contract violation). -/
def formatFirst : List Char → String → List Char
  | [], _ => []
  | '%' :: 's' :: rest, q => q.data ++ rest
  | c :: rest, q => c :: formatFirst rest q

/-- String form of the format-template substitution. -/
def pyFormat (fs q : String) : String :=
  ⟨formatFirst fs.data q⟩

/-- The parameter dict built by `GeocodeFarm.geocode`: `addr` mapped to
the formatted query, plus `key` when the API key is truthy (Python dicts
preserve insertion order). -/
def geocodeParams (g : GeocodeFarm) (query : String) : List (String × String) :=
  let params := [("addr", pyFormat g.format_string query)]
  if apiKeyTruthy g.api_key then params ++ [("key", g.api_key.getD "")] else params

/-- The URL built by `GeocodeFarm.geocode` before the transport call:
`"?".join((self.api, urlencode(params)))`. -/
def geocodeUrl (g : GeocodeFarm) (query : String) : String :=
  forwardApi ++ "?" ++ urlencode (geocodeParams g query)

/-- Modelled from the spec: `Geocoder._coerce_point_to_string` is not
under src/.  Per the spec the reverse query is normalized to a canonical
`"lat, lon"` string form, and for a string query that canonical form is
the string itself (the spec notes no further normalization rule). -/
def coercePointToString (query : String) : String := query

/-- The parameter dict built by `GeocodeFarm.reverse` from the two parsed
coordinate components. -/
def reverseParams (g : GeocodeFarm) (lat lon : String) : List (String × String) :=
  let params := [("lat", lat), ("lon", lon)]
  if apiKeyTruthy g.api_key then params ++ [("key", g.api_key.getD "")] else params

/-- The request-building stage of `GeocodeFarm.reverse` on a string query:
split the canonical string on `,` and strip each part; unpacking into
`lat, lon` succeeds only for exactly two parts, any other shape raises
`ValueError("Must be a coordinate pair or Point")` (the `except ValueError`
re-raise); on success the reverse URL is built from the parameter dict. -/
def reverseUrl (g : GeocodeFarm) (query : String) : Except PyError String :=
  match (pySplitComma (coercePointToString query)).map pyStrip with
  | [lat, lon] => .ok (reverseApi ++ "?" ++ urlencode (reverseParams g lat lon))
  | _ => .error (.valueError "Must be a coordinate pair or Point")

/-! ## Properties of the URL encoding -/

/-- All characters of `s` have code points below 256, so that the
single-byte model of percent encoding is faithful for them. -/
def byteString (s : String) : Bool :=
  s.data.all (fun c => decide (c.toNat < 256))

theorem hexVal_hexDigitChar (n : Nat) (h : n < 16) :
    hexVal (hexDigitChar n) = n := by
  have key : ∀ m : Fin 16, hexVal (hexDigitChar m.val) = m.val := by decide
  exact key ⟨n, h⟩

theorem hexDigitChar_not_special (n : Nat) (h : n < 16) :
    hexDigitChar n ≠ '&' ∧ hexDigitChar n ≠ '=' ∧ hexDigitChar n ≠ '?' := by
  have key : ∀ m : Fin 16,
      hexDigitChar m.val ≠ '&' ∧ hexDigitChar m.val ≠ '=' ∧ hexDigitChar m.val ≠ '?' := by
    decide
  exact key ⟨n, h⟩

theorem unquoteChars_plus (cs : List Char) :
    unquoteChars ('+' :: cs) = ' ' :: unquoteChars cs := by
  rw [unquoteChars.eq_def]; simp

theorem unquoteChars_percent (a b : Char) (cs : List Char) :
    unquoteChars ('%' :: a :: b :: cs)
      = Char.ofNat (16 * hexVal a + hexVal b) :: unquoteChars cs := by
  rw [unquoteChars.eq_def]; simp

theorem unquoteChars_other (c : Char) (cs : List Char) (h1 : c ≠ '+') (h2 : c ≠ '%') :
    unquoteChars (c :: cs) = c :: unquoteChars cs := by
  rw [unquoteChars.eq_def]; simp [h1, h2]

theorem unquoteChars_quoteChar (c : Char) (h : c.toNat < 256) (cs : List Char) :
    unquoteChars (quoteChar c ++ cs) = c :: unquoteChars cs := by
  by_cases hs : isUrlSafe c
  · have h1 : c ≠ '+' := by intro e; rw [e] at hs; exact absurd hs (by decide)
    have h2 : c ≠ '%' := by intro e; rw [e] at hs; exact absurd hs (by decide)
    have hq : quoteChar c = [c] := by unfold quoteChar; rw [if_pos hs]
    rw [hq, List.cons_append, List.nil_append, unquoteChars_other c _ h1 h2]
  · by_cases hsp : c = ' '
    · subst hsp
      rw [show quoteChar ' ' = ['+'] from rfl, List.cons_append, List.nil_append,
        unquoteChars_plus]
    · have hq : quoteChar c
          = ['%', hexDigitChar (c.toNat / 16 % 16), hexDigitChar (c.toNat % 16)] := by
        unfold quoteChar; rw [if_neg hs, if_neg hsp]
      have hdiv : c.toNat / 16 < 16 := (Nat.div_lt_iff_lt_mul (by norm_num)).2 h
      rw [hq, List.cons_append, List.cons_append, List.cons_append, List.nil_append,
        unquoteChars_percent,
        hexVal_hexDigitChar _ (Nat.mod_lt _ (by norm_num)),
        hexVal_hexDigitChar _ (Nat.mod_lt _ (by norm_num)),
        Nat.mod_eq_of_lt hdiv, Nat.div_add_mod, Char.ofNat_toNat]

theorem unquoteChars_flatMap_quoteChar (cs : List Char)
    (h : ∀ c ∈ cs, c.toNat < 256) :
    unquoteChars (cs.flatMap quoteChar) = cs := by
  induction cs with
  | nil => rfl
  | cons c rest ih =>
    rw [List.flatMap_cons, unquoteChars_quoteChar c (h c (by simp)),
      ih (fun d hd => h d (by simp [hd]))]

theorem unquotePlus_quotePlus (s : String) (h : byteString s = true) :
    (⟨unquoteChars (quotePlus s).data⟩ : String) = s := by
  have hb : ∀ c ∈ s.data, c.toNat < 256 := by
    intro c hc
    have := List.all_eq_true.1 h c hc
    simpa using this
  show (⟨unquoteChars (s.data.flatMap quoteChar)⟩ : String) = s
  rw [unquoteChars_flatMap_quoteChar s.data hb]

theorem mem_quoteChar_not_special (c x : Char) (hx : x ∈ quoteChar c) :
    x ≠ '&' ∧ x ≠ '=' ∧ x ≠ '?' := by
  by_cases hs : isUrlSafe c
  · rw [show quoteChar c = [c] by unfold quoteChar; rw [if_pos hs]] at hx
    rcases List.mem_singleton.1 hx with rfl
    refine ⟨?_, ?_, ?_⟩ <;> · intro e; rw [e] at hs; exact absurd hs (by decide)
  · by_cases hsp : c = ' '
    · subst hsp
      rw [show quoteChar ' ' = ['+'] from rfl] at hx
      rcases List.mem_singleton.1 hx with rfl
      exact ⟨by decide, by decide, by decide⟩
    · rw [show quoteChar c
          = ['%', hexDigitChar (c.toNat / 16 % 16), hexDigitChar (c.toNat % 16)] by
        unfold quoteChar; rw [if_neg hs, if_neg hsp]] at hx
      rcases List.mem_cons.1 hx with e | hx
      · subst e; exact ⟨by decide, by decide, by decide⟩
      rcases List.mem_cons.1 hx with e | hx
      · subst e; exact hexDigitChar_not_special _ (Nat.mod_lt _ (by norm_num))
      rcases List.mem_cons.1 hx with e | hx
      · subst e; exact hexDigitChar_not_special _ (Nat.mod_lt _ (by norm_num))
      · exact absurd hx (List.not_mem_nil x)

theorem quotePlus_no_amp (s : String) : '&' ∉ (quotePlus s).data := by
  intro hmem
  have := List.mem_flatMap.1 hmem
  rcases this with ⟨c, _, hc⟩
  exact (mem_quoteChar_not_special c '&' hc).1 rfl

theorem quotePlus_no_eq (s : String) : '=' ∉ (quotePlus s).data := by
  intro hmem
  rcases List.mem_flatMap.1 hmem with ⟨c, _, hc⟩
  exact (mem_quoteChar_not_special c '=' hc).2.1 rfl

theorem quotePlus_no_qm (s : String) : '?' ∉ (quotePlus s).data := by
  intro hmem
  rcases List.mem_flatMap.1 hmem with ⟨c, _, hc⟩
  exact (mem_quoteChar_not_special c '?' hc).2.2 rfl

theorem splitOnChar_of_not_mem (sep : Char) (cs : List Char) (h : sep ∉ cs) :
    splitOnChar sep cs = [cs] := by
  induction cs with
  | nil => rfl
  | cons c rest ih =>
    have hc : ¬c = sep := fun e => h (by simp [e])
    rw [splitOnChar, if_neg hc, ih (fun hm => h (List.mem_cons_of_mem _ hm))]

theorem splitOnChar_append (sep : Char) (a b : List Char) (h : sep ∉ a) :
    splitOnChar sep (a ++ sep :: b) = a :: splitOnChar sep b := by
  induction a with
  | nil => simp [splitOnChar]
  | cons c rest ih =>
    have hc : ¬c = sep := fun e => h (by simp [e])
    rw [List.cons_append, splitOnChar, if_neg hc,
      ih (fun hm => h (List.mem_cons_of_mem _ hm))]

theorem splitKV_append (k v : List Char) (h : '=' ∉ k) :
    splitKV (k ++ '=' :: v) = (k, v) := by
  induction k with
  | nil => simp [splitKV]
  | cons c rest ih =>
    have hc : ¬c = '=' := fun e => h (by simp [e])
    rw [List.cons_append, splitKV, if_neg hc,
      ih (fun hm => h (List.mem_cons_of_mem _ hm))]

theorem afterChar_append (sep : Char) (a b : List Char) (h : sep ∉ a) :
    afterChar sep (a ++ sep :: b) = b := by
  induction a with
  | nil => simp [afterChar]
  | cons c rest ih =>
    have hc : ¬c = sep := fun e => h (by simp [e])
    rw [List.cons_append, afterChar, if_neg hc,
      ih (fun hm => h (List.mem_cons_of_mem _ hm))]

theorem not_mem_encodePair (p : String × String) (x : Char) (hx : x = '&' ∨ x = '?') :
    x ∉ encodePair p := by
  intro hmem
  unfold encodePair at hmem
  rcases List.mem_append.1 hmem with hmem | hmem
  · rcases hx with e | e <;> subst e
    · exact quotePlus_no_amp p.1 hmem
    · exact quotePlus_no_qm p.1 hmem
  · rcases List.mem_cons.1 hmem with e | hmem
    · rcases hx with h | h <;> simp [h] at e
    · rcases hx with e | e <;> subst e
      · exact quotePlus_no_amp p.2 hmem
      · exact quotePlus_no_qm p.2 hmem

theorem decodePair_encodePair (p : String × String)
    (h1 : byteString p.1 = true) (h2 : byteString p.2 = true) :
    ((⟨unquoteChars (splitKV (encodePair p)).1⟩ : String),
     (⟨unquoteChars (splitKV (encodePair p)).2⟩ : String)) = p := by
  unfold encodePair
  rw [splitKV_append _ _ (quotePlus_no_eq p.1)]
  show (((⟨unquoteChars (quotePlus p.1).data⟩ : String)),
    ((⟨unquoteChars (quotePlus p.2).data⟩ : String))) = p
  rw [unquotePlus_quotePlus p.1 h1, unquotePlus_quotePlus p.2 h2]

/-- Decoding inverts encoding: for any non-empty parameter list of
single-byte strings, `decodeParams` recovers exactly the parameters that
`urlencode` serialized. -/
theorem decodeParams_urlencode (ps : List (String × String)) (hne : ps ≠ [])
    (h : ∀ p ∈ ps, byteString p.1 = true ∧ byteString p.2 = true) :
    decodeParams (urlencode ps) = ps := by
  induction ps with
  | nil => exact absurd rfl hne
  | cons p rest ih =>
    match rest, ih with
    | [], _ =>
      show decodeParams ⟨encodePair p⟩ = [p]
      unfold decodeParams
      rw [show (⟨encodePair p⟩ : String).data = encodePair p from rfl,
        splitOnChar_of_not_mem _ _ (not_mem_encodePair p '&' (Or.inl rfl)),
        List.map_cons, List.map_nil]
      rw [show ((⟨unquoteChars (splitKV (encodePair p)).1⟩ : String),
          (⟨unquoteChars (splitKV (encodePair p)).2⟩ : String)) = p from
        decodePair_encodePair p (h p (by simp)).1 (h p (by simp)).2]
    | q :: rest2, ih =>
      have hrest : decodeParams (urlencode (q :: rest2)) = q :: rest2 :=
        ih (by simp) (fun r hr => h r (List.mem_cons_of_mem _ hr))
      show decodeParams ⟨urlencodeChars (p :: q :: rest2)⟩ = p :: q :: rest2
      unfold decodeParams
      rw [show (⟨urlencodeChars (p :: q :: rest2)⟩ : String).data
          = encodePair p ++ '&' :: urlencodeChars (q :: rest2) from rfl,
        splitOnChar_append _ _ _ (not_mem_encodePair p '&' (Or.inl rfl)),
        List.map_cons]
      rw [show ((⟨unquoteChars (splitKV (encodePair p)).1⟩ : String),
          (⟨unquoteChars (splitKV (encodePair p)).2⟩ : String)) = p from
        decodePair_encodePair p (h p (by simp)).1 (h p (by simp)).2]
      exact congrArg (p :: ·) hrest

theorem urlencodeChars_no_qm (ps : List (String × String)) :
    '?' ∉ urlencodeChars ps := by
  induction ps with
  | nil => simp [urlencodeChars]
  | cons p rest ih =>
    match rest, ih with
    | [], _ => exact not_mem_encodePair p '?' (Or.inr rfl)
    | q :: rest2, ih =>
      rw [show urlencodeChars (p :: q :: rest2)
        = encodePair p ++ '&' :: urlencodeChars (q :: rest2) from rfl]
      intro hmem
      rcases List.mem_append.1 hmem with hmem | hmem
      · exact not_mem_encodePair p '?' (Or.inr rfl) hmem
      · rcases List.mem_cons.1 hmem with e | hmem
        · exact absurd e (by decide)
        · exact ih hmem

/-- The query part of a built URL is exactly the encoded parameter string,
provided the base endpoint contains no `?`. -/
theorem urlQuery_build (base : String) (ps : List (String × String))
    (hbase : '?' ∉ base.data) :
    urlQuery (base ++ "?" ++ urlencode ps) = urlencode ps := by
  unfold urlQuery
  rw [show (base ++ "?" ++ urlencode ps).data
      = base.data ++ '?' :: urlencodeChars ps by
    rw [String.data_append, String.data_append, List.append_assoc]; rfl]
  rw [afterChar_append _ _ _ hbase]
  rfl

/-! ## Claim theorems: response interpretation -/

/-- C9: for every non-null JSON-object response body without the top-level
`geocoding_results` key, `_parse_json` raises a key-lookup error — not
null and not one of the geocoder error kinds — because the envelope is
indexed unconditionally before any status classification. -/
theorem parse_json_missing_envelope_key
    (bodyFields : List (String × PyVal)) (exactlyOne : Bool)
    (h : bodyFields.lookup "geocoding_results" = none) :
    parse_json (.dict bodyFields) exactlyOne = .error (.keyError "geocoding_results") := by
  simp only [parse_json, PyVal.isNull, Bool.false_eq_true, if_false, pyIndex, h,
    bind, Except.bind, pure, Except.pure]

/-- Witness for C9 at a concrete body without the envelope key. -/
theorem parse_json_missing_envelope_key_witness :
    parse_json (.dict [("foo", .null)]) true = .error (.keyError "geocoding_results") :=
  parse_json_missing_envelope_key [("foo", .null)] true rfl

/-- C4: for every body whose envelope's `STATUS.status` contains the
substring `NO_RESULTS`, `_parse_json` returns null and raises no error,
for both values of `exactly_one` and for every `STATUS.access` value (the
`NO_RESULTS` check precedes the failure classification). -/
theorem parse_json_no_results_returns_none
    (bodyFields grFields statusFields : List (String × PyVal))
    (status : String) (exactlyOne : Bool)
    (hb : bodyFields.lookup "geocoding_results" = some (.dict grFields))
    (hst : grFields.lookup "STATUS" = some (.dict statusFields))
    (hs : statusFields.lookup "status" = some (.str status))
    (hnr : strContains status "NO_RESULTS" = true) :
    parse_json (.dict bodyFields) exactlyOne = .ok none := by
  simp only [parse_json, check_for_api_errors, PyVal.isNull, Bool.false_eq_true, if_false,
    pyIndex, hb, pyGetD, hst, Option.getD_some, hs, pyInStr, hnr, if_true,
    bind, Except.bind, pure, Except.pure]

/-- Witness for C4: a `NO_RESULTS` status together with a failure-looking
access token still yields null, with `exactly_one` false. -/
theorem parse_json_no_results_returns_none_witness :
    parse_json (.dict [("geocoding_results", .dict
        [("STATUS", .dict [("status", .str "FAILED, NO_RESULTS"),
          ("access", .str "OVER_QUERY_LIMIT")])])]) false = .ok none :=
  parse_json_no_results_returns_none
    [("geocoding_results", .dict [("STATUS", .dict [("status", .str "FAILED, NO_RESULTS"),
      ("access", .str "OVER_QUERY_LIMIT")])])]
    [("STATUS", .dict [("status", .str "FAILED, NO_RESULTS"),
      ("access", .str "OVER_QUERY_LIMIT")])]
    [("status", .str "FAILED, NO_RESULTS"), ("access", .str "OVER_QUERY_LIMIT")]
    "FAILED, NO_RESULTS" false rfl rfl rfl rfl

/-- C3: for every response whose `STATUS.status` neither contains
`NO_RESULTS` nor equals `SUCCESS`, interpretation raises the error picked
by exact match on `STATUS.access`: `API_KEY_INVALID` maps to
authentication failure, `OVER_QUERY_LIMIT` to quota exceeded, and any
other access value to the generic service error carrying that raw value. -/
theorem parse_json_failure_access_mapping
    (bodyFields grFields statusFields : List (String × PyVal))
    (status : String) (exactlyOne : Bool)
    (hb : bodyFields.lookup "geocoding_results" = some (.dict grFields))
    (hst : grFields.lookup "STATUS" = some (.dict statusFields))
    (hs : statusFields.lookup "status" = some (.str status))
    (hnr : strContains status "NO_RESULTS" = false)
    (hne : status ≠ "SUCCESS") :
    parse_json (.dict bodyFields) exactlyOne =
      .error
        (if pyEqStr ((statusFields.lookup "access").getD .null) "API_KEY_INVALID"
          then .authenticationFailure ((statusFields.lookup "access").getD .null)
         else if pyEqStr ((statusFields.lookup "access").getD .null) "OVER_QUERY_LIMIT"
          then .quotaExceeded ((statusFields.lookup "access").getD .null)
         else .serviceError ((statusFields.lookup "access").getD .null)) := by
  have hbeq : (status == "SUCCESS") = false := by
    simp [hne]
  simp only [parse_json, check_for_api_errors, PyVal.isNull, Bool.false_eq_true, if_false,
    pyIndex, hb, pyGetD, hst, Option.getD_some, hs, pyInStr, hnr,
    pyEqStr, hbeq, Bool.not_false, if_true, accessErrorToException,
    bind, Except.bind, pure, Except.pure]

/-- Witness for C3 with an unmatched access token falling through to the
generic service error. -/
theorem parse_json_failure_access_mapping_witness :
    parse_json (.dict [("geocoding_results", .dict
        [("STATUS", .dict [("status", .str "FAILURE"),
          ("access", .str "UNKNOWN_ERROR")])])]) true
      = .error (.serviceError (.str "UNKNOWN_ERROR")) := by
  have h := parse_json_failure_access_mapping
    [("geocoding_results", .dict [("STATUS", .dict [("status", .str "FAILURE"),
      ("access", .str "UNKNOWN_ERROR")])])]
    [("STATUS", .dict [("status", .str "FAILURE"), ("access", .str "UNKNOWN_ERROR")])]
    [("status", .str "FAILURE"), ("access", .str "UNKNOWN_ERROR")]
    "FAILURE" true rfl rfl rfl rfl (by decide)
  exact h

/-- C2 counterexample: a response classified as success (`STATUS.status`
equal to `SUCCESS`, not containing `NO_RESULTS`) but with an empty
`RESULTS` sequence reaches the exactly-one selection with an empty list
and fails with an index error; the empty-success short-circuit does not
intercept it, refuting the claimed guarantee. -/
theorem parse_json_empty_success_counterexample :
    parse_json (.dict [("geocoding_results", .dict
        [("STATUS", .dict [("status", .str "SUCCESS")]),
         ("RESULTS", .list [])])]) true
      = .error .indexError := rfl

/-- C2 amended: the empty-result interception only covers statuses
containing `NO_RESULTS`; for every body whose status is exactly `SUCCESS`
and whose `RESULTS` sequence is empty, the sequence reaching the
exactly-one selection step is empty and selecting the first element
raises an index error. -/
theorem parse_json_success_empty_results_index_error
    (bodyFields grFields statusFields : List (String × PyVal))
    (hb : bodyFields.lookup "geocoding_results" = some (.dict grFields))
    (hst : grFields.lookup "STATUS" = some (.dict statusFields))
    (hs : statusFields.lookup "status" = some (.str "SUCCESS"))
    (hr : grFields.lookup "RESULTS" = some (.list [])) :
    parse_json (.dict bodyFields) true = .error .indexError := by
  simp only [parse_json, check_for_api_errors, parse_code, parseCodeLoop, pyIterList,
    PyVal.isNull, Bool.false_eq_true, if_false,
    pyIndex, hb, pyGetD, hst, Option.getD_some, hs, pyInStr, hr,
    show strContains "SUCCESS" "NO_RESULTS" = false from rfl,
    pyEqStr, beq_self_eq_true, Bool.not_true, if_true,
    bind, Except.bind, pure, Except.pure, throw, throwThe, MonadExceptOf.throw]

/-- Witness for the C2 amended theorem at a concrete body. -/
theorem parse_json_success_empty_results_index_error_witness :
    parse_json (.dict [("geocoding_results", .dict
        [("STATUS", .dict [("status", .str "SUCCESS"), ("access", .str "FREE_USER, ACCESS_GRANTED")]),
         ("RESULTS", .list [])])]) true
      = .error .indexError :=
  parse_json_success_empty_results_index_error
    [("geocoding_results", .dict
      [("STATUS", .dict [("status", .str "SUCCESS"), ("access", .str "FREE_USER, ACCESS_GRANTED")]),
       ("RESULTS", .list [])])]
    [("STATUS", .dict [("status", .str "SUCCESS"), ("access", .str "FREE_USER, ACCESS_GRANTED")]),
     ("RESULTS", .list [])]
    [("status", .str "SUCCESS"), ("access", .str "FREE_USER, ACCESS_GRANTED")]
    rfl rfl rfl rfl

/-- C10 counterexample: when `STATUS` lacks a `status` field but carries an
`access` token, the raised error is the one mapped from that token — here
quota exceeded — not a generic service error with null detail, refuting
the claim. -/
theorem parse_json_defaulted_status_counterexample :
    parse_json (.dict [("geocoding_results", .dict
        [("STATUS", .dict [("access", .str "OVER_QUERY_LIMIT")])])]) true
      = .error (.quotaExceeded (.str "OVER_QUERY_LIMIT")) := rfl

/-- C10 amended: when the envelope lacks a `STATUS` mapping, or its
`STATUS` lacks a `status` field, the status is treated as the empty
string and classified as failure; the fetched `access` value (null when
absent) is mapped through the usual error table — so the error is the
generic service error with null detail exactly when `access` is also
absent, while a present token selects its mapped kind; never an unhandled
parse error and never a success. -/
theorem parse_json_defaulted_status_failure
    (bodyFields grFields : List (String × PyVal)) (exactlyOne : Bool) (access : PyVal)
    (hb : bodyFields.lookup "geocoding_results" = some (.dict grFields))
    (hstatus :
      (grFields.lookup "STATUS" = none ∧ access = .null) ∨
      (∃ statusFields, grFields.lookup "STATUS" = some (.dict statusFields) ∧
        statusFields.lookup "status" = none ∧
        (statusFields.lookup "access").getD .null = access)) :
    parse_json (.dict bodyFields) exactlyOne = .error (accessErrorToException access) ∧
    (access = .null →
      parse_json (.dict bodyFields) exactlyOne = .error (.serviceError .null)) := by
  have main : parse_json (.dict bodyFields) exactlyOne
      = .error (accessErrorToException access) := by
    rcases hstatus with ⟨hst, hacc⟩ | ⟨statusFields, hst, hs, hacc⟩
    · subst hacc
      simp only [parse_json, check_for_api_errors, PyVal.isNull, Bool.false_eq_true, if_false,
        pyIndex, hb, pyGetD, hst, Option.getD_none, List.lookup_nil,
        show strContains "" "NO_RESULTS" = false from rfl,
        show (("" : String) == "SUCCESS") = false from rfl,
        pyInStr, pyEqStr, Bool.not_false, if_true,
        bind, Except.bind, pure, Except.pure, throw, throwThe, MonadExceptOf.throw]
    · subst hacc
      simp only [parse_json, check_for_api_errors, PyVal.isNull, Bool.false_eq_true, if_false,
        pyIndex, hb, pyGetD, hst, Option.getD_some, hs, Option.getD_none,
        show strContains "" "NO_RESULTS" = false from rfl,
        show (("" : String) == "SUCCESS") = false from rfl,
        pyInStr, pyEqStr, Bool.not_false, if_true,
        bind, Except.bind, pure, Except.pure, throw, throwThe, MonadExceptOf.throw]
  refine ⟨main, fun hacc => ?_⟩
  rw [main, hacc]
  rfl

/-- Witness for the C10 amended theorem: envelope without any `STATUS`
mapping yields the generic service error with null detail. -/
theorem parse_json_defaulted_status_failure_witness :
    parse_json (.dict [("geocoding_results", .dict [])]) true
        = .error (accessErrorToException .null) ∧
    (PyVal.null = PyVal.null →
      parse_json (.dict [("geocoding_results", .dict [])]) true
        = .error (.serviceError .null)) :=
  parse_json_defaulted_status_failure
    [("geocoding_results", .dict [])] [] true .null rfl (Or.inl ⟨rfl, rfl⟩)

/-! ## Claim theorems: result decoding -/

/-- Entry with a missing latitude and a present longitude, exercising the
partial-coordinate path of `parse_code`. -/
def partialCoordEntry : PyVal :=
  .dict [("COORDINATES", .dict [("longitude", .str "2.5")])]

/-- C1 counterexample: decoding an entry whose latitude is missing leaves
the longitude component as the raw fetched string, not null — the
produced pair is (null, "2.5"), refuting the claim that both components
become null when either axis is missing. -/
theorem parse_code_partial_pair_counterexample :
    parse_code (.dict [("RESULTS", .list [partialCoordEntry])])
      = .ok [⟨.null, .null, .str "2.5", partialCoordEntry⟩]
    ∧ (PyVal.str "2.5").isNull = false := ⟨rfl, rfl⟩

/-- C1 amended: when either fetched coordinate is falsy (missing or
empty), neither axis is converted — each component of the produced pair
keeps its fetched value (null only where the field itself was missing or
null); only when both are truthy are both converted to floating point. -/
theorem decode_entry_coordinate_conversion
    (result coords latv lonv : PyVal) (loc : Location)
    (hc : pyGetD result "COORDINATES" (.dict []) = .ok coords)
    (hlat : pyGetD coords "latitude" .null = .ok latv)
    (hlon : pyGetD coords "longitude" .null = .ok lonv)
    (hd : decodeEntry result = .ok loc) :
    ((truthy latv && truthy lonv) = false →
      loc.latitude = latv ∧ loc.longitude = lonv) ∧
    ((truthy latv && truthy lonv) = true →
      pyFloat latv = .ok loc.latitude ∧ pyFloat lonv = .ok loc.longitude) := by
  cases result with
  | null => simp [pyGetD] at hc
  | str s => simp [pyGetD] at hc
  | floatv s => simp [pyGetD] at hc
  | list xs => simp [pyGetD] at hc
  | dict fs =>
    have pyGetD_dict : ∀ (gs : List (String × PyVal)) (k : String) (d : PyVal),
        pyGetD (.dict gs) k d = .ok ((gs.lookup k).getD d) := fun _ _ _ => rfl
    rw [pyGetD_dict] at hc
    simp only [Except.ok.injEq] at hc
    simp only [decodeEntry, bind, Except.bind, pure, Except.pure, pyGetD_dict,
      hc, hlat, hlon] at hd
    cases hpn : pyGetD ((List.lookup "ADDRESS" fs).getD (.dict [])) "address_returned" .null with
    | error e => simp only [hpn] at hd; exact Except.noConfusion hd
    | ok pv =>
      simp only [hpn] at hd
      by_cases hnull : pv.isNull = true
      · simp only [hnull, eq_self_iff_true, if_true] at hd
        cases hpn2 : pyGetD ((List.lookup "ADDRESS" fs).getD (.dict [])) "address" .null with
        | error e => simp only [hpn2] at hd; exact Except.noConfusion hd
        | ok nm =>
          simp only [hpn2] at hd
          by_cases ht : (truthy latv && truthy lonv) = true
          · simp only [ht, eq_self_iff_true, if_true] at hd
            cases hfa : pyFloat latv with
            | error e => simp only [hfa] at hd; exact Except.noConfusion hd
            | ok a =>
              simp only [hfa] at hd
              cases hfb : pyFloat lonv with
              | error e => simp only [hfb] at hd; exact Except.noConfusion hd
              | ok b =>
                simp only [hfb, Except.ok.injEq] at hd
                subst hd
                refine ⟨fun hff => ?_, fun _ => ⟨rfl, rfl⟩⟩
                rw [hff] at ht
                exact Bool.noConfusion ht
          · rw [Bool.not_eq_true] at ht
            simp only [ht, Bool.false_eq_true, if_false, Except.ok.injEq] at hd
            subst hd
            refine ⟨fun _ => ⟨rfl, rfl⟩, fun htt => ?_⟩
            rw [htt] at ht
            exact Bool.noConfusion ht
      · rw [Bool.not_eq_true] at hnull
        simp only [hnull, Bool.false_eq_true, if_false] at hd
        by_cases ht : (truthy latv && truthy lonv) = true
        · simp only [ht, eq_self_iff_true, if_true] at hd
          cases hfa : pyFloat latv with
          | error e => simp only [hfa] at hd; exact Except.noConfusion hd
          | ok a =>
            simp only [hfa] at hd
            cases hfb : pyFloat lonv with
            | error e => simp only [hfb] at hd; exact Except.noConfusion hd
            | ok b =>
              simp only [hfb, Except.ok.injEq] at hd
              subst hd
              refine ⟨fun hff => ?_, fun _ => ⟨rfl, rfl⟩⟩
              rw [hff] at ht
              exact Bool.noConfusion ht
        · rw [Bool.not_eq_true] at ht
          simp only [ht, Bool.false_eq_true, if_false, Except.ok.injEq] at hd
          subst hd
          refine ⟨fun _ => ⟨rfl, rfl⟩, fun htt => ?_⟩
          rw [htt] at ht
          exact Bool.noConfusion ht

/-- Witness for the C1 amended theorem at the partial-coordinate entry. -/
theorem decode_entry_coordinate_conversion_witness :
    ((truthy .null && truthy (.str "2.5")) = false →
      (Location.mk .null .null (.str "2.5") partialCoordEntry).latitude = .null ∧
      (Location.mk .null .null (.str "2.5") partialCoordEntry).longitude = .str "2.5") ∧
    ((truthy .null && truthy (.str "2.5")) = true →
      pyFloat .null = .ok (Location.mk .null .null (.str "2.5") partialCoordEntry).latitude ∧
      pyFloat (.str "2.5") = .ok (Location.mk .null .null (.str "2.5") partialCoordEntry).longitude) :=
  decode_entry_coordinate_conversion partialCoordEntry
    (.dict [("longitude", .str "2.5")]) .null (.str "2.5")
    (Location.mk .null .null (.str "2.5") partialCoordEntry) rfl rfl rfl rfl

/-- Length and pointwise characterization of the `parse_code` loop: a
successful run decodes exactly one location per entry, in order. -/
theorem parseCodeLoop_length_nth (rs : List PyVal) (places : List Location)
    (h : parseCodeLoop rs = .ok places) :
    places.length = rs.length ∧
    ∀ i (hi : i < rs.length) (hj : i < places.length),
      decodeEntry rs[i] = .ok places[i] := by
  induction rs generalizing places with
  | nil =>
    simp only [parseCodeLoop, Except.ok.injEq] at h
    subst h
    exact ⟨rfl, fun i hi _ => absurd hi (Nat.not_lt_zero i)⟩
  | cons r rest ih =>
    simp only [parseCodeLoop, bind, Except.bind] at h
    cases hr : decodeEntry r with
    | error e => rw [hr] at h; simp at h
    | ok loc =>
      rw [hr] at h
      cases hrest : parseCodeLoop rest with
      | error e => rw [hrest] at h; simp at h
      | ok locs =>
        rw [hrest] at h
        simp only [pure, Except.pure, Except.ok.injEq] at h
        subst h
        obtain ⟨hlen, hnth⟩ := ih locs hrest
        refine ⟨by simp [hlen], ?_⟩
        intro i hi hj
        cases i with
        | zero => simpa using hr
        | succ n =>
          have hn : n < rest.length := by simpa using hi
          have hn2 : n < locs.length := by simpa using hj
          simpa using hnth n hn hn2

/-- C8: a successful `parse_code` run over a `RESULTS` list produces
exactly one location per input entry and preserves order — the i-th
output is decoded from the i-th input entry. -/
theorem parse_code_order (results : PyVal) (resultsFields : List (String × PyVal))
    (rs : List PyVal) (places : List Location)
    (hres : results = .dict resultsFields)
    (hr : resultsFields.lookup "RESULTS" = some (.list rs))
    (hp : parse_code results = .ok places) :
    places.length = rs.length ∧
    ∀ i (hi : i < rs.length) (hj : i < places.length),
      decodeEntry rs[i] = .ok places[i] := by
  subst hres
  simp only [parse_code, pyGetD, hr, Option.getD_some, pyIterList,
    bind, Except.bind] at hp
  exact parseCodeLoop_length_nth rs places hp

/-- Entry with full coordinates used by the C8 witness. -/
def fullCoordEntry : PyVal :=
  .dict [("COORDINATES", .dict [("latitude", .str "51.5238"), ("longitude", .str "-0.1586")]),
         ("ADDRESS", .dict [("address_returned", .str "221B Baker St")])]

/-- Witness for C8 on a two-entry `RESULTS` list. -/
theorem parse_code_order_witness :
    ([⟨.str "221B Baker St", .floatv "51.5238", .floatv "-0.1586", fullCoordEntry⟩,
      ⟨.null, .null, .str "2.5", partialCoordEntry⟩] : List Location).length
        = ([fullCoordEntry, partialCoordEntry] : List PyVal).length ∧
    decodeEntry fullCoordEntry
      = .ok ⟨.str "221B Baker St", .floatv "51.5238", .floatv "-0.1586", fullCoordEntry⟩ := by
  have h := parse_code_order (.dict [("RESULTS", .list [fullCoordEntry, partialCoordEntry])])
    [("RESULTS", .list [fullCoordEntry, partialCoordEntry])]
    [fullCoordEntry, partialCoordEntry]
    [⟨.str "221B Baker St", .floatv "51.5238", .floatv "-0.1586", fullCoordEntry⟩,
     ⟨.null, .null, .str "2.5", partialCoordEntry⟩]
    rfl rfl rfl
  exact ⟨h.1, h.2 0 (by decide) (by decide)⟩

/-! ## Claim theorems: request building -/

/-- C7: the forward URL built by `geocode` decodes back to exactly
`addr = formatted query` when the API key is absent or empty, and exactly
that plus `key = api key` when the key is truthy.  The byte-string
hypotheses reflect the single-byte model of percent encoding. -/
theorem geocode_url_roundtrip (g : GeocodeFarm) (query : String)
    (hq : byteString (pyFormat g.format_string query) = true)
    (hk : ∀ k, g.api_key = some k → byteString k = true) :
    decodeParams (urlQuery (geocodeUrl g query)) =
      if apiKeyTruthy g.api_key
      then [("addr", pyFormat g.format_string query), ("key", g.api_key.getD "")]
      else [("addr", pyFormat g.format_string query)] := by
  have hne : geocodeParams g query ≠ [] := by
    unfold geocodeParams
    by_cases hkey : apiKeyTruthy g.api_key <;> simp [hkey]
  have hbytes : ∀ p ∈ geocodeParams g query,
      byteString p.1 = true ∧ byteString p.2 = true := by
    intro p hp
    unfold geocodeParams at hp
    by_cases hkey : apiKeyTruthy g.api_key
    · rw [if_pos hkey] at hp
      simp only [List.cons_append, List.nil_append, List.mem_cons,
        List.not_mem_nil, or_false] at hp
      rcases hp with rfl | rfl
      · exact ⟨rfl, hq⟩
      · refine ⟨rfl, ?_⟩
        cases hak : g.api_key with
        | none => rw [hak] at hkey; exact absurd hkey (by simp [apiKeyTruthy])
        | some k => exact hk k hak
    · rw [if_neg hkey] at hp
      simp only [List.mem_singleton] at hp
      subst hp
      exact ⟨rfl, hq⟩
  unfold geocodeUrl
  rw [urlQuery_build _ _ (by decide), decodeParams_urlencode _ hne hbytes]
  unfold geocodeParams
  by_cases hkey : apiKeyTruthy g.api_key <;> simp [hkey]

/-- Witness for C7 at query Paris with key k1. -/
theorem geocode_url_roundtrip_witness :
    decodeParams (urlQuery (geocodeUrl ⟨some "k1", "%s"⟩ "Paris"))
      = [("addr", "Paris"), ("key", "k1")] := by
  have h := geocode_url_roundtrip ⟨some "k1", "%s"⟩ "Paris" rfl
    (fun k hk => by injection hk with h2; rw [← h2]; rfl)
  exact h

/-- C5: on a reverse-query string, if splitting the canonical string on a
comma yields exactly two parts, `reverse` strips each part and builds a
URL whose decoded parameter set contains `lat` mapped to the first part
and `lon` mapped to the second; if splitting does not yield exactly two
parts, `reverse` raises the invalid-input `ValueError` with message
"Must be a coordinate pair or Point" instead of producing any URL. -/
theorem reverse_url_build_or_reject (g : GeocodeFarm) (q : String)
    (hk : ∀ k, g.api_key = some k → byteString k = true) :
    (∀ lat lon : String,
      (pySplitComma (coercePointToString q)).map pyStrip = [lat, lon] →
      byteString lat = true → byteString lon = true →
      reverseUrl g q = .ok (reverseApi ++ "?" ++ urlencode (reverseParams g lat lon)) ∧
      ("lat", lat) ∈ decodeParams (urlQuery (reverseApi ++ "?" ++ urlencode (reverseParams g lat lon))) ∧
      ("lon", lon) ∈ decodeParams (urlQuery (reverseApi ++ "?" ++ urlencode (reverseParams g lat lon)))) ∧
    (∀ parts : List String,
      (pySplitComma (coercePointToString q)).map pyStrip = parts →
      parts.length ≠ 2 →
      reverseUrl g q = .error (.valueError "Must be a coordinate pair or Point")) := by
  constructor
  · intro lat lon hsplit hbl hbr
    have hurl : reverseUrl g q
        = .ok (reverseApi ++ "?" ++ urlencode (reverseParams g lat lon)) := by
      unfold reverseUrl
      rw [hsplit]
    have hne : reverseParams g lat lon ≠ [] := by
      unfold reverseParams
      by_cases hkey : apiKeyTruthy g.api_key <;> simp [hkey]
    have hbytes : ∀ p ∈ reverseParams g lat lon,
        byteString p.1 = true ∧ byteString p.2 = true := by
      intro p hp
      unfold reverseParams at hp
      by_cases hkey : apiKeyTruthy g.api_key
      · rw [if_pos hkey] at hp
        simp only [List.cons_append, List.nil_append, List.mem_cons,
          List.not_mem_nil, or_false] at hp
        rcases hp with rfl | rfl | rfl
        · exact ⟨rfl, hbl⟩
        · exact ⟨rfl, hbr⟩
        · refine ⟨rfl, ?_⟩
          cases hak : g.api_key with
          | none => rw [hak] at hkey; exact absurd hkey (by simp [apiKeyTruthy])
          | some k => exact hk k hak
      · rw [if_neg hkey] at hp
        simp only [List.mem_cons, List.not_mem_nil, or_false] at hp
        rcases hp with rfl | rfl
        · exact ⟨rfl, hbl⟩
        · exact ⟨rfl, hbr⟩
    have hdec : decodeParams (urlQuery (reverseApi ++ "?" ++ urlencode (reverseParams g lat lon)))
        = reverseParams g lat lon := by
      rw [urlQuery_build _ _ (by decide), decodeParams_urlencode _ hne hbytes]
    refine ⟨hurl, ?_, ?_⟩ <;>
      · rw [hdec]
        unfold reverseParams
        by_cases hkey : apiKeyTruthy g.api_key <;> simp [hkey]
  · intro parts hsp hlen
    unfold reverseUrl
    rw [hsp]
    match parts, hlen with
    | [], _ => rfl
    | [a], _ => rfl
    | [a, b], hlen => exact absurd rfl hlen
    | a :: b :: c :: rest, _ => rfl

/-- Witness for C5 on the string query " 1.5 , 2.5" without an API key. -/
theorem reverse_url_build_or_reject_witness :
    reverseUrl ⟨none, "%s"⟩ " 1.5 , 2.5"
        = .ok "https://www.geocode.farm/v3/json/reverse/?lat=1.5&lon=2.5" ∧
    ("lat", "1.5") ∈ decodeParams (urlQuery "https://www.geocode.farm/v3/json/reverse/?lat=1.5&lon=2.5") ∧
    ("lon", "2.5") ∈ decodeParams (urlQuery "https://www.geocode.farm/v3/json/reverse/?lat=1.5&lon=2.5") := by
  have h := (reverse_url_build_or_reject ⟨none, "%s"⟩ " 1.5 , 2.5"
    (fun k hk => Option.noConfusion hk)).1 "1.5" "2.5" rfl rfl rfl
  exact h

/-- C6 counterexample: the two-part query "abc,def" has non-numeric
components, yet `reverse` forwards it — the URL is built from the raw
parts and no malformed-input error is raised, refuting the claimed
numeric validation. -/
theorem reverse_nonnumeric_counterexample :
    reverseUrl ⟨none, "%s"⟩ "abc,def"
        = .ok "https://www.geocode.farm/v3/json/reverse/?lat=abc&lon=def"
      ∧ isFloatLiteral "abc" = false ∧ isFloatLiteral "def" = false :=
  ⟨rfl, rfl, rfl⟩

/-- C6 amended: the reverse query is validated for shape only — a query
that does not split into exactly two comma-separated parts after trimming
is rejected with the invalid-input error before any URL is built, but the
two parts are never checked for numericity: any two-part query, numeric
or not, is forwarded into the URL. -/
theorem reverse_shape_validation_only (g : GeocodeFarm) (q : String) :
    match (pySplitComma (coercePointToString q)).map pyStrip with
    | [lat, lon] =>
      reverseUrl g q = .ok (reverseApi ++ "?" ++ urlencode (reverseParams g lat lon))
    | _ => reverseUrl g q = .error (.valueError "Must be a coordinate pair or Point") := by
  cases hsp : (pySplitComma (coercePointToString q)).map pyStrip with
  | nil => simp only [reverseUrl, hsp]
  | cons a rest =>
    cases rest with
    | nil => simp only [reverseUrl, hsp]
    | cons b rest2 =>
      cases rest2 with
      | nil => simp only [reverseUrl, hsp]
      | cons c rest3 => simp only [reverseUrl, hsp]
